import Mathlib

/-!
Verification of the MARS→G4Beamline beam converter (`src/mars2g4bl.py`).

The transformation pipeline of `main` is embedded shallowly:

* the loaded matrix is a `List (List ℚ)` (numbers as exact rationals);
* the two random sources are explicit parameters: `rand m` stands for the
  vector `np.random.random(m)` of uniform draws in `[0,1)`, and `shuffle n`
  stands for the result of `np.random.shuffle(np.arange(n))`, constrained in
  theorems to be a permutation of `0, …, n-1`;
* fallible steps (the column-width check, the PDG dictionary lookup) return
  `Except String`, an uncaught Python exception being an `Except.error`.

File I/O (`loadtxt_fast`, `loadBeam`/`writeBeam`), path handling and the
interactive prompts are outside the transformation core and are not modelled.
-/

namespace Mars2G4BL

/-- Python `int()` applied to a float: truncation toward zero. -/
def pyInt (q : ℚ) : ℤ := if 0 ≤ q then ⌊q⌋ else ⌈q⌉

/-- The fixed particle-code table `MARS2G4BL_PDG` (lines 54-55 of
`mars2g4bl.py`):
`{1:2212, 2:-2112, 3:211, 4:-211, 5:321, 6:-321, 7:-13, 8:13, 9:22, 10:11,
11:-11}`.  A Python dict lookup on a missing key raises `KeyError`, modelled
here by `none`. -/
def MARS2G4BL_PDG (c : ℤ) : Option ℤ :=
  if c = 1 then some 2212
  else if c = 2 then some (-2112)
  else if c = 3 then some 211
  else if c = 4 then some (-211)
  else if c = 5 then some 321
  else if c = 6 then some (-321)
  else if c = 7 then some (-13)
  else if c = 8 then some 13
  else if c = 9 then some 22
  else if c = 10 then some 11
  else if c = 11 then some (-11)
  else none

/-- The four-key configuration dictionary `inputdict`
(`'p_cut'`, `'mult'`, `'duplicate'`, `'fraction'`). -/
structure InputDict where
  p_cut : ℚ × ℚ
  mult : ℚ
  duplicate : Bool
  fraction : ℚ

/-- Column count of the loaded matrix, `marsbeam_mat.shape[1]`.  A
`loadtxt` matrix is rectangular, so the width of the first row is the width
of every row. -/
def matWidth (mat : List (List ℚ)) : ℕ := (mat.headD []).length

/-- The column-count check, lines 74-81.  Width 9 sets `time_included =
True`.  For any other width the `elif` on line 76 evaluates the undefined
name `MARSbeamMat` (a typo for `marsbeam_mat`), so Python raises `NameError`
before the width-8 branch or the error-print branch can complete; the
uncaught exception aborts the conversion. -/
def columnCheck (ncols : ℕ) : Except String Bool :=
  if ncols = 9 then Except.ok true
  else Except.error "NameError: name MARSbeamMat is not defined"

/-- Squared momentum magnitude `px**2+py**2+pz**2` (the square of
`total_p`) of a MARS row, read from columns 4, 5, 6 of the unconverted
matrix (lines 91-93). -/
def totalP2 (r : List ℚ) : ℚ := (r.getD 4 0) ^ 2 + (r.getD 5 0) ^ 2 + (r.getD 6 0) ^ 2

/-- Decidable rational form of the real comparison `Real.sqrt s ≤ c`
(the lemma `sqrtLe_iff` proves the equivalence). -/
def sqrtLe (s c : ℚ) : Bool := decide (0 ≤ c ∧ s ≤ c ^ 2)

/-- Decidable rational form of the real comparison `c ≤ Real.sqrt s`
(the lemma `leSqrt_iff` proves the equivalence). -/
def leSqrt (c s : ℚ) : Bool := decide (c ≤ 0 ∨ c ^ 2 ≤ s)

/-- The per-row retention test of the momentum cut, lines 97-98:
`total_p <= p_cut[1]/1e3  and  total_p >= p_cut[0]/1e3`,
where `total_p = sqrt(totalP2 r)`. -/
def pcond (pc : ℚ × ℚ) (r : List ℚ) : Bool :=
  sqrtLe (totalP2 r) (pc.2 / 1000) && leSqrt (pc.1 / 1000) (totalP2 r)

/-- The momentum cut, lines 96-99: applied only when
`inputdict['p_cut'] != [0,0]`; otherwise the matrix passes unchanged. -/
def momentumCut (pc : ℚ × ℚ) (mat : List (List ℚ)) : List (List ℚ) :=
  if pc ≠ (0, 0) then mat.filter (pcond pc) else mat

/-- Unit conversion and PDG translation of one MARS row into one 12-column
G4BL row (lines 100-107):  the output starts as `np.zeros(12)`, columns 0-2
get `x,y,z` (cols 1-3) times 10 (cm→mm), columns 3-5 get `px,py,pz`
(cols 4-6) times 1000 (GeV/c→MeV/c), column 6 gets `t` (col 8) times 1e9
(s→ns) when the time column exists, and column 7 gets the translated PDG id.
Columns 8-11 stay 0 for later stages.  An unmapped particle code raises
`KeyError` inside `np.vectorize`. -/
def convertRow (timeIncluded : Bool) (r : List ℚ) : Except String (List ℚ) :=
  match MARS2G4BL_PDG (pyInt (r.getD 0 0)) with
  | none => Except.error "KeyError"
  | some pdg =>
      Except.ok [r.getD 1 0 * 10, r.getD 2 0 * 10, r.getD 3 0 * 10,
                 r.getD 4 0 * 1000, r.getD 5 0 * 1000, r.getD 6 0 * 1000,
                 if timeIncluded then r.getD 8 0 * 1000000000 else 0,
                 (pdg : ℚ), 0, 0, 0, 0]

/-- Row-by-row conversion of the whole matrix; the first `KeyError`
aborts. -/
def convertAll (timeIncluded : Bool) : List (List ℚ) → Except String (List (List ℚ))
  | [] => Except.ok []
  | r :: rs =>
      match convertRow timeIncluded r, convertAll timeIncluded rs with
      | Except.ok g, Except.ok gs => Except.ok (g :: gs)
      | Except.error e, _ => Except.error e
      | _, Except.error e => Except.error e

/-- The per-row duplication count of lines 113-117:
`n = np.floor(w)`, `f = w - n`, `add = (u >= f)`, count `= n + add`
(then cast to `int` for `np.repeat`; `Int.toNat` also clamps a negative
total at 0, a case `np.repeat` rejects and no claim exercises, since
weights are nonnegative). -/
def dupCount (w u : ℚ) : ℕ := (⌊w⌋ + (if w - ⌊w⌋ ≤ u then 1 else 0)).toNat

/-- Embedding of `np.repeat(mat, counts, axis=0)`: row `i` repeated
`counts[i]` times, in place, in order (lines 118-120). -/
def repeatRows (mat : List (List ℚ)) (counts : List ℕ) : List (List ℚ) :=
  (List.zipWith (fun r c => List.replicate c r) mat counts).flatten

/-- The fractional-sampling stage, lines 126-130: shuffle the index range,
keep the first `np.floor(fraction * rows)` indices, gather those rows.
`perm` is the shuffled index list.  (A negative fraction would make the
Python slice end negative and wrap; the CLI rejects nonpositive fractions,
so that region is not modelled.) -/
def fracSample (fraction : ℚ) (perm : List ℕ) (m : List (List ℚ)) : List (List ℚ) :=
  (perm.take (⌊fraction * (m.length : ℚ)⌋).toNat).map (fun i => m.getD i [])

/-- Event-ID reassignment, lines 132-133: column 8 of row `i` becomes
`i + 1`. -/
def reassignEventID (m : List (List ℚ)) : List (List ℚ) :=
  List.zipWith (fun i r => r.set 8 ((i : ℚ) + 1)) (List.range m.length) m

/-- The rescaled weights of line 109: `marsbeam_mat[:,7] *= inputdict['mult']`,
read from the momentum-cut matrix. -/
def weightsOf (d : InputDict) (mat1 : List (List ℚ)) : List ℚ :=
  mat1.map (fun r => r.getD 7 0 * d.mult)

/-- The duplication branch (lines 112-123): when `duplicate` is set, repeat
each G4BL row by its `dupCount` and force the weight column (index 11) to 1;
otherwise the weight column carries the rescaled weight of the same row. -/
def dupStage (d : InputDict) (g0 : List (List ℚ)) (ws us : List ℚ) : List (List ℚ) :=
  if d.duplicate then
    (repeatRows g0 (List.zipWith dupCount ws us)).map (fun r => r.set 11 1)
  else
    List.zipWith (fun r w => r.set 11 w) g0 ws

/-- The sampling stage as called by `main`: the shuffled index range of the
post-duplication matrix feeds `fracSample`. -/
def sampleStage (d : InputDict) (shuffle : ℕ → List ℕ) (g1 : List (List ℚ)) :
    List (List ℚ) :=
  fracSample d.fraction (shuffle g1.length) g1

/-- Lines 109-133: everything after the unit/PDG conversion — weight
rescaling, optional duplication, fractional sampling, event-ID
reassignment.  `mat1` is the momentum-cut MARS matrix, `g0` the converted
12-column matrix. -/
def postConvert (d : InputDict) (mat1 g0 : List (List ℚ)) (rand : ℕ → List ℚ)
    (shuffle : ℕ → List ℕ) : List (List ℚ) :=
  reassignEventID
    (sampleStage d shuffle (dupStage d g0 (weightsOf d mat1) (rand mat1.length)))

/-- The transformation pipeline of `main` (lines 74-133), from the loaded
matrix to the matrix handed to the output serializer.  `rand m` models
`np.random.random(m)`; `shuffle n` models the shuffled `np.arange(n)`. -/
def main (d : InputDict) (mat : List (List ℚ)) (rand : ℕ → List ℚ)
    (shuffle : ℕ → List ℕ) : Except String (List (List ℚ)) :=
  match columnCheck (matWidth mat) with
  | Except.error e => Except.error e
  | Except.ok timeIncluded =>
      match convertAll timeIncluded (momentumCut d.p_cut mat) with
      | Except.error e => Except.error e
      | Except.ok g0 =>
          Except.ok (postConvert d (momentumCut d.p_cut mat) g0 rand shuffle)

/-- Modelled from the spec's words (§4.6, claim C1), for comparison with
`dupCount`: "the record is duplicated `n+1` times if `u < f`, otherwise `n`
times". -/
def specDupCount (w u : ℚ) : ℕ := (⌊w⌋ + (if u < w - ⌊w⌋ then 1 else 0)).toNat

/-! ### List helper lemmas -/

lemma getD_set_same {α : Type} {l : List α} {i : ℕ} {a d : α} (h : i < l.length) :
    (l.set i a).getD i d = a := by
  simp [List.getD_eq_getElem?_getD, List.getElem?_set_self h]

lemma getD_set_ne {α : Type} {l : List α} {i j : ℕ} (h : i ≠ j) {a d : α} :
    (l.set i a).getD j d = l.getD j d := by
  simp [List.getD_eq_getElem?_getD, List.getElem?_set_ne h]

lemma getD_mem_of_lt {α : Type} {l : List α} {i : ℕ} {d : α} (h : i < l.length) :
    l.getD i d ∈ l := by
  rw [List.getD_eq_getElem?_getD, List.getElem?_eq_getElem h]
  exact List.getElem_mem h

lemma getD_of_le {α : Type} {l : List α} {i : ℕ} {d : α} (h : l.length ≤ i) :
    l.getD i d = d := by
  rw [List.getD_eq_getElem?_getD, List.getElem?_eq_none h]
  rfl

lemma exists_getElem_of_mem_zipWith {α β γ : Type} {f : α → β → γ} {as : List α}
    {bs : List β} {c : γ} (h : c ∈ List.zipWith f as bs) :
    ∃ i, ∃ h1 : i < as.length, ∃ h2 : i < bs.length, c = f as[i] bs[i] := by
  obtain ⟨j, hj, hc⟩ := List.mem_iff_getElem.1 h
  have hj' : j < as.length ∧ j < bs.length := by
    simp only [List.length_zipWith, lt_min_iff] at hj
    exact hj
  refine ⟨j, hj'.1, hj'.2, ?_⟩
  rw [List.getElem_zipWith] at hc
  exact hc.symm

lemma map_getD_range {α : Type} (m : List α) (d : α) :
    (List.range m.length).map (fun i => m.getD i d) = m := by
  apply List.ext_getElem
  · simp
  · intro i h1 h2
    simp [List.getD_eq_getElem?_getD, List.getElem?_eq_getElem h2]

/-! ### Lemmas about the conversion stage -/

lemma convertRow_ok_iff {tI : Bool} {r : List ℚ} {g : List ℚ} :
    convertRow tI r = Except.ok g ↔
      ∃ pdg, MARS2G4BL_PDG (pyInt (r.getD 0 0)) = some pdg ∧
        g = [r.getD 1 0 * 10, r.getD 2 0 * 10, r.getD 3 0 * 10,
             r.getD 4 0 * 1000, r.getD 5 0 * 1000, r.getD 6 0 * 1000,
             if tI then r.getD 8 0 * 1000000000 else 0,
             (pdg : ℚ), 0, 0, 0, 0] := by
  unfold convertRow
  cases hp : MARS2G4BL_PDG (pyInt (r.getD 0 0)) with
  | none => simp
  | some pdg => simp [eq_comm]

lemma convertRow_ok_length {tI : Bool} {r g : List ℚ}
    (h : convertRow tI r = Except.ok g) : g.length = 12 := by
  obtain ⟨pdg, -, hg⟩ := convertRow_ok_iff.1 h
  simp [hg]

lemma convertRow_error_iff {tI : Bool} {r : List ℚ} {e : String} :
    convertRow tI r = Except.error e ↔
      MARS2G4BL_PDG (pyInt (r.getD 0 0)) = none ∧ e = "KeyError" := by
  unfold convertRow
  cases hp : MARS2G4BL_PDG (pyInt (r.getD 0 0)) with
  | none => simp [eq_comm]
  | some pdg => simp

lemma convertAll_ok_length {tI : Bool} {rs gs : List (List ℚ)}
    (h : convertAll tI rs = Except.ok gs) : gs.length = rs.length := by
  induction rs generalizing gs with
  | nil =>
      simp only [convertAll] at h
      cases h
      rfl
  | cons r rs ih =>
      rw [convertAll] at h
      cases h1 : convertRow tI r <;> rw [h1] at h
      · cases h2 : convertAll tI rs <;> rw [h2] at h <;> cases h
      · cases h2 : convertAll tI rs <;> rw [h2] at h
        · cases h
        · cases h
          simp [ih h2]

lemma convertAll_ok_getElem {tI : Bool} {rs gs : List (List ℚ)}
    (h : convertAll tI rs = Except.ok gs) :
    ∀ i (h1 : i < rs.length) (h2 : i < gs.length),
      convertRow tI rs[i] = Except.ok gs[i] := by
  induction rs generalizing gs with
  | nil =>
      intro i h1
      exact absurd h1 (by simp)
  | cons r rs ih =>
      rw [convertAll] at h
      cases h1 : convertRow tI r <;> rw [h1] at h
      · cases h2 : convertAll tI rs <;> rw [h2] at h <;> cases h
      · cases h2 : convertAll tI rs <;> rw [h2] at h
        · cases h
        · cases h
          intro i hi1 hi2
          cases i with
          | zero => simpa using h1
          | succ i => exact ih h2 i (by simpa using hi1) (by simpa using hi2)

lemma exists_of_mem_convertAll {tI : Bool} {rs gs : List (List ℚ)}
    (h : convertAll tI rs = Except.ok gs) {g : List ℚ} (hg : g ∈ gs) :
    ∃ r ∈ rs, convertRow tI r = Except.ok g := by
  obtain ⟨i, hi, hgi⟩ := List.mem_iff_getElem.1 hg
  have hlen := convertAll_ok_length h
  have hi' : i < rs.length := by omega
  exact ⟨rs[i], List.getElem_mem hi', hgi ▸ convertAll_ok_getElem h i hi' hi⟩

lemma convertAll_error_of_mem {tI : Bool} {rs : List (List ℚ)} {r : List ℚ} {e : String}
    (hr : r ∈ rs) (he : convertRow tI r = Except.error e) :
    ∃ e', convertAll tI rs = Except.error e' := by
  induction rs with
  | nil => cases hr
  | cons a rs ih =>
      rw [convertAll]
      rcases List.mem_cons.1 hr with rfl | hr'
      · rw [he]
        cases h2 : convertAll tI rs <;> exact ⟨_, rfl⟩
      · obtain ⟨e', he'⟩ := ih hr'
        rw [he']
        cases h1 : convertRow tI a <;> exact ⟨_, rfl⟩

/-! ### The momentum-filter condition over the reals -/

lemma sqrtLe_iff (s c : ℚ) :
    sqrtLe s c = true ↔ Real.sqrt ((s : ℝ)) ≤ (c : ℝ) := by
  unfold sqrtLe
  rw [decide_eq_true_iff, Real.sqrt_le_iff]
  constructor
  · rintro ⟨h1, h2⟩
    exact ⟨by exact_mod_cast h1, by exact_mod_cast h2⟩
  · rintro ⟨h1, h2⟩
    refine ⟨by exact_mod_cast h1, ?_⟩
    have : (s : ℝ) ≤ ((c : ℚ) : ℝ) ^ 2 := h2
    exact_mod_cast this

lemma leSqrt_iff (c s : ℚ) :
    leSqrt c s = true ↔ (c : ℝ) ≤ Real.sqrt ((s : ℝ)) := by
  unfold leSqrt
  rw [decide_eq_true_iff]
  rcases le_or_lt c 0 with hc | hc
  · constructor
    · intro _
      exact le_trans (by exact_mod_cast hc) (Real.sqrt_nonneg _)
    · intro _
      exact Or.inl hc
  · rw [Real.le_sqrt' (by exact_mod_cast hc)]
    constructor
    · rintro (h | h)
      · exact absurd h (not_le.2 hc)
      · exact_mod_cast h
    · intro h
      refine Or.inr ?_
      have : ((c : ℚ) : ℝ) ^ 2 ≤ (s : ℝ) := h
      exact_mod_cast this

lemma totalP2_nonneg (r : List ℚ) : 0 ≤ totalP2 r := by
  unfold totalP2
  positivity

lemma pcond_iff (pc : ℚ × ℚ) (r : List ℚ) :
    pcond pc r = true ↔
      ((pc.1 : ℝ) / 1000 ≤ Real.sqrt ((totalP2 r : ℚ) : ℝ) ∧
        Real.sqrt ((totalP2 r : ℚ) : ℝ) ≤ (pc.2 : ℝ) / 1000) := by
  unfold pcond
  rw [Bool.and_eq_true, sqrtLe_iff, leSqrt_iff]
  have h1 : ((pc.1 / 1000 : ℚ) : ℝ) = (pc.1 : ℝ) / 1000 := by push_cast; ring
  have h2 : ((pc.2 / 1000 : ℚ) : ℝ) = (pc.2 : ℝ) / 1000 := by push_cast; ring
  rw [h1, h2]
  exact and_comm

/-! ### Lemmas about the whole pipeline -/

lemma columnCheck_ok_iff {n : ℕ} {b : Bool} :
    columnCheck n = Except.ok b ↔ n = 9 ∧ b = true := by
  unfold columnCheck
  by_cases h : n = 9 <;> simp [h, eq_comm]

lemma main_ok_elim {d : InputDict} {mat : List (List ℚ)} {rand : ℕ → List ℚ}
    {shuffle : ℕ → List ℕ} {out : List (List ℚ)}
    (h : main d mat rand shuffle = Except.ok out) :
    matWidth mat = 9 ∧
      ∃ g0, convertAll true (momentumCut d.p_cut mat) = Except.ok g0 ∧
        out = postConvert d (momentumCut d.p_cut mat) g0 rand shuffle := by
  unfold main at h
  split at h
  · cases h
  next timeIncluded hc =>
    obtain ⟨hw, hb⟩ := columnCheck_ok_iff.1 hc
    subst hb
    split at h
    · cases h
    next g0 hca =>
      cases h
      exact ⟨hw, g0, hca, rfl⟩

lemma main_error_of_width {d : InputDict} {mat : List (List ℚ)} {rand : ℕ → List ℚ}
    {shuffle : ℕ → List ℕ} (h : matWidth mat ≠ 9) :
    main d mat rand shuffle = Except.error "NameError: name MARSbeamMat is not defined" := by
  rw [main]
  have : columnCheck (matWidth mat)
      = Except.error "NameError: name MARSbeamMat is not defined" := by
    unfold columnCheck
    simp [h]
  rw [this]

/-! ### Lemmas about the duplication stage -/

lemma exists_of_mem_repeatRows {mat : List (List ℚ)} {counts : List ℕ} {r : List ℚ}
    (h : r ∈ repeatRows mat counts) : r ∈ mat := by
  unfold repeatRows at h
  obtain ⟨l, hl, hr⟩ := List.mem_flatten.1 h
  obtain ⟨i, h1, h2, hl'⟩ := exists_getElem_of_mem_zipWith hl
  subst hl'
  rw [List.eq_of_mem_replicate hr]
  exact List.getElem_mem h1

lemma exists_of_mem_dupStage {d : InputDict} {g0 : List (List ℚ)} {ws us : List ℚ}
    {r : List ℚ} (h : r ∈ dupStage d g0 ws us) :
    ∃ g ∈ g0, r = g.set 11 1 ∨ ∃ w, r = g.set 11 w := by
  unfold dupStage at h
  by_cases hd : d.duplicate <;> simp only [hd, if_true, if_false, Bool.false_eq_true] at h
  · obtain ⟨g', hg', hr⟩ := List.mem_map.1 h
    exact ⟨g', exists_of_mem_repeatRows hg', Or.inl hr.symm⟩
  · obtain ⟨i, h1, h2, hr⟩ := exists_getElem_of_mem_zipWith h
    exact ⟨g0[i], List.getElem_mem h1, Or.inr ⟨ws[i], hr⟩⟩

lemma exists_getElem_of_mem_dupStage_false {d : InputDict} (hdup : d.duplicate = false)
    {g0 : List (List ℚ)} {ws us : List ℚ} {r : List ℚ}
    (h : r ∈ dupStage d g0 ws us) :
    ∃ j, ∃ h1 : j < g0.length, ∃ h2 : j < ws.length, r = (g0[j]).set 11 (ws[j]) := by
  unfold dupStage at h
  rw [hdup] at h
  simp only [Bool.false_eq_true, if_false] at h
  exact exists_getElem_of_mem_zipWith h

/-! ### Lemmas about the sampling stage -/

lemma floor_frac_le {p : ℚ} (hp1 : p ≤ 1) (n : ℕ) : (⌊p * (n : ℚ)⌋).toNat ≤ n := by
  rw [Int.toNat_le]
  have hpn : p * (n : ℚ) ≤ (n : ℚ) := by
    have hn : (0 : ℚ) ≤ (n : ℚ) := Nat.cast_nonneg n
    nlinarith
  calc ⌊p * (n : ℚ)⌋ ≤ ⌊(n : ℚ)⌋ := Int.floor_le_floor hpn
    _ = n := Int.floor_natCast n

lemma fracSample_length {p : ℚ} {perm : List ℕ} {m : List (List ℚ)}
    (hp1 : p ≤ 1) (hperm : perm.Perm (List.range m.length)) :
    (fracSample p perm m).length = (⌊p * (m.length : ℚ)⌋).toNat := by
  unfold fracSample
  have hlen : perm.length = m.length := by simpa using hperm.length_eq
  simp [List.length_take, hlen, Nat.min_eq_left (floor_frac_le hp1 m.length)]

lemma fracSample_subperm {p : ℚ} {perm : List ℕ} {m : List (List ℚ)}
    (hperm : perm.Perm (List.range m.length)) :
    List.Subperm (fracSample p perm m) m := by
  unfold fracSample
  have h1 : List.Sublist
      ((perm.take (⌊p * (m.length : ℚ)⌋).toNat).map (fun i => m.getD i []))
      (perm.map (fun i => m.getD i [])) :=
    (List.take_sublist _ _).map _
  have h2 : List.Perm (perm.map (fun i => m.getD i []))
      ((List.range m.length).map (fun i => m.getD i [])) := hperm.map _
  rw [map_getD_range m []] at h2
  exact h1.subperm.trans h2.subperm

lemma mem_or_nil_of_mem_fracSample {p : ℚ} {perm : List ℕ} {m : List (List ℚ)}
    {r : List ℚ} (h : r ∈ fracSample p perm m) : r ∈ m ∨ r = [] := by
  unfold fracSample at h
  obtain ⟨i, hi, hr⟩ := List.mem_map.1 h
  rcases lt_or_ge i m.length with hlt | hge
  · exact Or.inl (hr ▸ getD_mem_of_lt hlt)
  · exact Or.inr (hr ▸ getD_of_le hge)

lemma mem_of_mem_fracSample {p : ℚ} {perm : List ℕ} {m : List (List ℚ)}
    {r : List ℚ} (hperm : perm.Perm (List.range m.length))
    (h : r ∈ fracSample p perm m) : r ∈ m :=
  (fracSample_subperm hperm).subset h

/-! ### Lemmas about event-ID reassignment -/

lemma reassignEventID_length (m : List (List ℚ)) :
    (reassignEventID m).length = m.length := by
  simp [reassignEventID]

lemma exists_of_mem_reassign {m : List (List ℚ)} {r : List ℚ}
    (h : r ∈ reassignEventID m) :
    ∃ i, ∃ hi : i < m.length, r = (m[i]).set 8 ((i : ℚ) + 1) := by
  unfold reassignEventID at h
  obtain ⟨i, h1, h2, hr⟩ := exists_getElem_of_mem_zipWith h
  refine ⟨i, h2, ?_⟩
  simpa using hr

lemma reassign_getElem {m : List (List ℚ)} {i : ℕ} (hi : i < m.length)
    (hi2 : i < (reassignEventID m).length) :
    (reassignEventID m)[i] = (m[i]).set 8 ((i : ℚ) + 1) := by
  unfold reassignEventID
  rw [List.getElem_zipWith]
  rw [List.getElem_range]

lemma reassign_map_getD8 {m : List (List ℚ)} (h : ∀ r ∈ m, 8 < r.length) :
    (reassignEventID m).map (fun r => r.getD 8 0)
      = (List.range m.length).map (fun i : ℕ => ((i : ℚ) + 1)) := by
  apply List.ext_getElem
  · rw [List.length_map, reassignEventID_length, List.length_map, List.length_range]
  · intro i h1 h2
    rw [List.getElem_map, List.getElem_map, List.getElem_range]
    have hm : i < m.length := by
      rw [List.length_map, reassignEventID_length] at h1
      exact h1
    rw [reassign_getElem hm (by rwa [reassignEventID_length])]
    exact getD_set_same (h _ (List.getElem_mem hm))

lemma momentumCut_subset (pc : ℚ × ℚ) (mat : List (List ℚ)) :
    ∀ r ∈ momentumCut pc mat, r ∈ mat := by
  intro r hr
  unfold momentumCut at hr
  by_cases h : pc ≠ (0, 0)
  · rw [if_pos h] at hr
    exact (List.mem_filter.1 hr).1
  · rwa [if_neg h] at hr

/-! ### Claim theorems -/

/-- C1 (counterexample): for rescaled weight `w = 2.3` (`n = 2`, `f = 0.3`)
and uniform draw `u = 0.5`, the code produces 3 copies — it takes the
`n + 1` branch when `u ≥ f` — while the claim's rule (`n + 1` copies iff
`u < f`) produces 2 copies. -/
theorem C1_counterexample :
    dupCount (23/10) (1/2) = 3 ∧ specDupCount (23/10) (1/2) = 2 := by
  constructor <;> with_unfolding_all rfl

/-- C1 (amended): for a record with rescaled weight `w ≥ 0`, `n = ⌊w⌋`,
`f = w - n`, and one uniform draw `u ∈ [0,1)`, the duplication stage makes
`n` copies when `u < f` and `n + 1` copies when `u ≥ f` — the reverse of
the claimed rule — so the expected number of copies,
`f·n + (1-f)·(n+1)`, equals `2⌊w⌋ + 1 - w` (2.7 for `w = 2.3`, matching
the module docstring), not `w`. -/
theorem C1_dup_count_amended (w u : ℚ) (hw : 0 ≤ w) (_hu0 : 0 ≤ u) (_hu1 : u < 1) :
    (dupCount w u = if u < w - ⌊w⌋ then (⌊w⌋).toNat else (⌊w⌋).toNat + 1) ∧
      (w - ⌊w⌋) * (⌊w⌋ : ℚ) + (1 - (w - ⌊w⌋)) * ((⌊w⌋ : ℚ) + 1)
        = 2 * (⌊w⌋ : ℚ) + 1 - w := by
  constructor
  · unfold dupCount
    have hfl : 0 ≤ ⌊w⌋ := Int.floor_nonneg.2 hw
    by_cases h : w - ⌊w⌋ ≤ u
    · rw [if_pos h, if_neg (not_lt.2 h)]
      omega
    · rw [if_neg h, if_pos (not_le.1 h)]
      omega
  · ring

/-- Witness for `C1_dup_count_amended` at `w = 2.3`, `u = 0.5`: the code
emits 3 copies there and the expected copy count is 2.7. -/
theorem C1_dup_count_amended_witness :
    (0 ≤ (23/10 : ℚ) ∧ 0 ≤ (1/2 : ℚ) ∧ (1/2 : ℚ) < 1) ∧
      (dupCount (23/10) (1/2)
          = if (1/2 : ℚ) < 23/10 - ⌊(23/10 : ℚ)⌋ then (⌊(23/10 : ℚ)⌋).toNat
            else (⌊(23/10 : ℚ)⌋).toNat + 1) ∧
      (23/10 - ⌊(23/10 : ℚ)⌋) * ((⌊(23/10 : ℚ)⌋ : ℚ))
          + (1 - (23/10 - ⌊(23/10 : ℚ)⌋)) * ((⌊(23/10 : ℚ)⌋ : ℚ) + 1)
        = 27/10 := by
  have h := C1_dup_count_amended (23/10) (1/2) (by norm_num) (by norm_num) (by norm_num)
  refine ⟨⟨by norm_num, by norm_num, by norm_num⟩, h.1, ?_⟩
  rw [h.2]
  norm_num

/-- C2: when `p_cut` is not the sentinel `[0,0]`, the momentum filter keeps
exactly those records whose momentum magnitude `sqrt(px²+py²+pz²)`,
computed from the original unconverted components, satisfies
`p_min/1000 ≤ magnitude ≤ p_max/1000` with both bounds inclusive; when
`p_cut = [0,0]` the matrix passes through unchanged, so the row count
before duplication/sampling equals the input row count. -/
theorem C2_momentum_filter (pc : ℚ × ℚ) (mat : List (List ℚ)) :
    (pc ≠ (0, 0) →
      ∀ r : List ℚ, r ∈ momentumCut pc mat ↔
        r ∈ mat ∧ ((pc.1 : ℝ) / 1000 ≤ Real.sqrt ((totalP2 r : ℚ) : ℝ) ∧
          Real.sqrt ((totalP2 r : ℚ) : ℝ) ≤ (pc.2 : ℝ) / 1000)) ∧
    momentumCut (0, 0) mat = mat := by
  constructor
  · intro hpc r
    unfold momentumCut
    rw [if_pos hpc, List.mem_filter, pcond_iff]
  · unfold momentumCut
    simp

/-- Witness for `C2_momentum_filter`: cut `[1000, 2000]` MeV/c, one record
with momentum `(0, 0, 3/2)` GeV/c — magnitude `3/2 ∈ [1, 2]`, retained. -/
theorem C2_momentum_filter_witness :
    ([1, 0, 0, 0, 0, 0, 3/2, 1, 0] : List ℚ)
        ∈ momentumCut (1000, 2000) [[1, 0, 0, 0, 0, 0, 3/2, 1, 0]] ↔
      ([1, 0, 0, 0, 0, 0, 3/2, 1, 0] : List ℚ) ∈ [[1, 0, 0, 0, 0, 0, 3/2, 1, 0]] ∧
        ((((1000 : ℚ) : ℝ)) / 1000
            ≤ Real.sqrt ((totalP2 [1, 0, 0, 0, 0, 0, 3/2, 1, 0] : ℚ) : ℝ) ∧
          Real.sqrt ((totalP2 [1, 0, 0, 0, 0, 0, 3/2, 1, 0] : ℚ) : ℝ)
            ≤ (((2000 : ℚ) : ℝ)) / 1000) :=
  (C2_momentum_filter (1000, 2000) [[1, 0, 0, 0, 0, 0, 3/2, 1, 0]]).1
    (by with_unfolding_all decide) [1, 0, 0, 0, 0, 0, 3/2, 1, 0]

/-- C4: the PDG table maps the 11 defined MARS codes to exactly the fixed
values of the claim; every code outside `1..11` is unmapped, and a pipeline
run on a width-9 matrix containing such a record (with the no-cut sentinel,
so the record is not filtered away first) fails with an error and produces
no output. -/
theorem C4_pdg_mapping :
    (MARS2G4BL_PDG 1 = some 2212 ∧ MARS2G4BL_PDG 2 = some (-2112) ∧
     MARS2G4BL_PDG 3 = some 211 ∧ MARS2G4BL_PDG 4 = some (-211) ∧
     MARS2G4BL_PDG 5 = some 321 ∧ MARS2G4BL_PDG 6 = some (-321) ∧
     MARS2G4BL_PDG 7 = some (-13) ∧ MARS2G4BL_PDG 8 = some 13 ∧
     MARS2G4BL_PDG 9 = some 22 ∧ MARS2G4BL_PDG 10 = some 11 ∧
     MARS2G4BL_PDG 11 = some (-11)) ∧
    (∀ c : ℤ, (c < 1 ∨ 11 < c) → MARS2G4BL_PDG c = none) ∧
    (∀ (d : InputDict) (mat : List (List ℚ)) (rand : ℕ → List ℚ)
        (shuffle : ℕ → List ℕ),
      matWidth mat = 9 → d.p_cut = (0, 0) →
      (∃ r ∈ mat, MARS2G4BL_PDG (pyInt (r.getD 0 0)) = none) →
      ∃ e, main d mat rand shuffle = Except.error e) := by
  refine ⟨⟨rfl, rfl, rfl, rfl, rfl, rfl, rfl, rfl, rfl, rfl, rfl⟩, ?_, ?_⟩
  · intro c hc
    unfold MARS2G4BL_PDG
    have h1 : c ≠ 1 := by omega
    have h2 : c ≠ 2 := by omega
    have h3 : c ≠ 3 := by omega
    have h4 : c ≠ 4 := by omega
    have h5 : c ≠ 5 := by omega
    have h6 : c ≠ 6 := by omega
    have h7 : c ≠ 7 := by omega
    have h8 : c ≠ 8 := by omega
    have h9 : c ≠ 9 := by omega
    have h10 : c ≠ 10 := by omega
    have h11 : c ≠ 11 := by omega
    rw [if_neg h1, if_neg h2, if_neg h3, if_neg h4, if_neg h5, if_neg h6,
        if_neg h7, if_neg h8, if_neg h9, if_neg h10, if_neg h11]
  · rintro d mat rand shuffle hw hpc ⟨r, hr, hnone⟩
    have hcut : momentumCut d.p_cut mat = mat := by
      rw [hpc]
      unfold momentumCut
      simp
    have hr' : r ∈ momentumCut d.p_cut mat := hcut.symm ▸ hr
    have herr : convertRow true r = Except.error "KeyError" :=
      convertRow_error_iff.2 ⟨hnone, rfl⟩
    obtain ⟨e', he'⟩ := convertAll_error_of_mem hr' herr
    refine ⟨e', ?_⟩
    have hcc : columnCheck (matWidth mat) = Except.ok true := by
      rw [hw]
      rfl
    simp only [main, hcc, he']

/-- Witness for `C4_pdg_mapping`: code 99 is unmapped and a one-record
input with code 99 makes the pipeline fail. -/
theorem C4_pdg_mapping_witness :
    MARS2G4BL_PDG 99 = none ∧
      ∃ e, main ⟨(0, 0), 1, false, 1⟩ [[99, 0, 0, 0, 0, 0, 0, 1, 0]]
          (fun m => List.replicate m (1/2)) (fun n => List.range n)
        = Except.error e :=
  ⟨C4_pdg_mapping.2.1 99 (by omega),
   C4_pdg_mapping.2.2 _ _ _ _ (by with_unfolding_all rfl) rfl
     ⟨[99, 0, 0, 0, 0, 0, 0, 1, 0], by simp, by with_unfolding_all rfl⟩⟩

/-- C6: for every fraction `p ∈ (0,1]` and a shuffle that is a genuine
permutation of the row indices, the fractional sampler outputs exactly
`⌊p · row_count⌋` rows, and the output is a sub-permutation of the
pre-sampling matrix: every output row is a row of it and the sampler
neither duplicates nor fabricates rows. -/
theorem C6_frac_sampler (p : ℚ) (perm : List ℕ) (m : List (List ℚ))
    (hp0 : 0 < p) (hp1 : p ≤ 1) (hperm : perm.Perm (List.range m.length)) :
    ((fracSample p perm m).length : ℤ) = ⌊p * (m.length : ℚ)⌋ ∧
      List.Subperm (fracSample p perm m) m := by
  constructor
  · rw [fracSample_length hp1 hperm]
    exact Int.toNat_of_nonneg (Int.floor_nonneg.2 (by positivity))
  · exact fracSample_subperm hperm

/-- Witness for `C6_frac_sampler`: `p = 1/2`, two rows, reversed shuffle —
exactly `⌊1⌋ = 1` row survives and it is one of the input rows. -/
theorem C6_frac_sampler_witness :
    ((fracSample (1/2) [1, 0] [[(1 : ℚ)], [2]]).length : ℤ)
        = ⌊(1/2 : ℚ) * (([[(1 : ℚ)], [2]] : List (List ℚ)).length : ℚ)⌋ ∧
      List.Subperm (fracSample (1/2) [1, 0] [[(1 : ℚ)], [2]]) [[(1 : ℚ)], [2]] :=
  C6_frac_sampler (1/2) [1, 0] [[(1 : ℚ)], [2]] (by norm_num) (by norm_num)
    (by decide)

/-- C7 (counterexample): with `fraction = 1` the sampling stage is not
skipped.  The reversing shuffle — one valid outcome of
`np.random.shuffle` — hands the two-row input to event-ID reassignment in
reversed order (x-column 20 first), while the identity shuffle keeps the
original order (x-column 10 first), so the matrix handed over is not a
pass-through of the post-duplication row order. -/
theorem C7_counterexample :
    ((List.range 2).reverse.Perm (List.range 2)) ∧
    main ⟨(0, 0), 1, false, 1⟩
        [[1, 1, 2, 3, 0, 0, 0, 1, 0], [1, 2, 2, 3, 0, 0, 0, 1, 0]]
        (fun m => List.replicate m (1/2)) (fun n => (List.range n).reverse)
      = Except.ok [[20, 20, 30, 0, 0, 0, 0, 2212, 1, 0, 0, 1],
                   [10, 20, 30, 0, 0, 0, 0, 2212, 2, 0, 0, 1]] ∧
    main ⟨(0, 0), 1, false, 1⟩
        [[1, 1, 2, 3, 0, 0, 0, 1, 0], [1, 2, 2, 3, 0, 0, 0, 1, 0]]
        (fun m => List.replicate m (1/2)) (fun n => List.range n)
      = Except.ok [[10, 20, 30, 0, 0, 0, 0, 2212, 1, 0, 0, 1],
                   [20, 20, 30, 0, 0, 0, 0, 2212, 2, 0, 0, 1]] :=
  ⟨by decide, by with_unfolding_all rfl, by with_unfolding_all rfl⟩

/-- C7 (amended): when `fraction = 1` the sampling stage still executes: it
retains all rows (`⌊1·n⌋ = n`) but in the shuffled order, so the matrix
handed to event-ID reassignment is the shuffle's permutation of the
post-duplication matrix — the same rows as a multiset, not necessarily the
same order. -/
theorem C7_fraction_one_amended (perm : List ℕ) (m : List (List ℚ))
    (hperm : perm.Perm (List.range m.length)) :
    fracSample 1 perm m = perm.map (fun i => m.getD i []) ∧
      List.Perm (fracSample 1 perm m) m := by
  have hlen : perm.length = m.length := by simpa using hperm.length_eq
  have hfloor : (⌊(1 : ℚ) * (m.length : ℚ)⌋).toNat = m.length := by
    rw [one_mul, Int.floor_natCast]
    exact Int.toNat_natCast m.length
  constructor
  · unfold fracSample
    rw [hfloor, ← hlen, List.take_length]
  · have hp : List.Perm (perm.map (fun i => m.getD i []))
        ((List.range m.length).map (fun i => m.getD i [])) := hperm.map _
    rw [map_getD_range m []] at hp
    unfold fracSample
    rw [hfloor, ← hlen, List.take_length]
    exact hp

/-- Witness for `C7_fraction_one_amended`: two rows, reversing shuffle —
all rows retained, in shuffled order. -/
theorem C7_fraction_one_amended_witness :
    fracSample 1 [1, 0] [[(1 : ℚ)], [2]]
        = [1, 0].map (fun i => ([[(1 : ℚ)], [2]] : List (List ℚ)).getD i []) ∧
      List.Perm (fracSample 1 [1, 0] [[(1 : ℚ)], [2]]) [[(1 : ℚ)], [2]] :=
  C7_fraction_one_amended [1, 0] [[(1 : ℚ)], [2]] (by decide)

/-- C8: a loaded matrix whose column count is neither 8 nor 9 makes the
conversion abort with an error — concretely the uncaught `NameError` from
the undefined name `MARSbeamMat` in the width check — so no later pipeline
stage runs and nothing is written. -/
theorem C8_bad_width_aborts (d : InputDict) (mat : List (List ℚ))
    (rand : ℕ → List ℚ) (shuffle : ℕ → List ℕ)
    (_h8 : matWidth mat ≠ 8) (h9 : matWidth mat ≠ 9) :
    main d mat rand shuffle
      = Except.error "NameError: name MARSbeamMat is not defined" :=
  main_error_of_width h9

/-- Witness for `C8_bad_width_aborts`: a 3-column matrix aborts. -/
theorem C8_bad_width_aborts_witness :
    main ⟨(0, 0), 1, false, 1⟩ [[1, 2, 3]] (fun m => List.replicate m (1/2))
        (fun n => List.range n)
      = Except.error "NameError: name MARSbeamMat is not defined" :=
  C8_bad_width_aborts _ _ _ _ (by decide) (by decide)

/-- C9 (code bug): the documented 8-column input
`(1, 1.0, 2.0, 3.0, 0.1, 0.2, 0.9899, 1.0)` should convert to the single
12-field output row, but the width check crashes on every non-9-column
matrix because line 76 references the undefined name `MARSbeamMat`; the
pipeline aborts at the width check and produces nothing. -/
theorem C9_eight_column_crash :
    main ⟨(0, 0), 1, false, 1⟩ [[1, 1, 2, 3, 1/10, 2/10, 9899/10000, 1]]
        (fun m => List.replicate m (1/2)) (fun n => List.range n)
      = Except.error "NameError: name MARSbeamMat is not defined" := by
  with_unfolding_all rfl

/-- C3: every successful run whose shuffle is a genuine permutation of the
row indices produces a matrix all of whose rows have exactly 12 fields,
and whose event-id column (index 8) reads `1, 2, …, N` down the rows,
`N` being the final row count after filtering, duplication and sampling. -/
theorem C3_shape_and_event_ids (d : InputDict) (mat : List (List ℚ))
    (rand : ℕ → List ℚ) (shuffle : ℕ → List ℕ) (out : List (List ℚ))
    (hsh : ∀ n, (shuffle n).Perm (List.range n))
    (hok : main d mat rand shuffle = Except.ok out) :
    (∀ r ∈ out, r.length = 12) ∧
      out.map (fun r => r.getD 8 0)
        = (List.range out.length).map (fun i : ℕ => ((i : ℚ) + 1)) := by
  obtain ⟨hw, g0, hca, hout⟩ := main_ok_elim hok
  have hg0 : ∀ g ∈ g0, g.length = 12 := by
    intro g hg
    obtain ⟨r, hr, hcr⟩ := exists_of_mem_convertAll hca hg
    exact convertRow_ok_length hcr
  have hg1 : ∀ r ∈ dupStage d g0 (weightsOf d (momentumCut d.p_cut mat))
      (rand (momentumCut d.p_cut mat).length), r.length = 12 := by
    intro r hr
    obtain ⟨g, hg, hcase⟩ := exists_of_mem_dupStage hr
    rcases hcase with rfl | ⟨w, rfl⟩ <;> rw [List.length_set] <;> exact hg0 g hg
  have hg2 : ∀ r ∈ sampleStage d shuffle
      (dupStage d g0 (weightsOf d (momentumCut d.p_cut mat))
        (rand (momentumCut d.p_cut mat).length)), r.length = 12 := by
    intro r hr
    exact hg1 r (mem_of_mem_fracSample (hsh _) hr)
  subst hout
  unfold postConvert
  constructor
  · intro r hr
    obtain ⟨i, hi, rfl⟩ := exists_of_mem_reassign hr
    rw [List.length_set]
    exact hg2 _ (List.getElem_mem hi)
  · rw [reassign_map_getD8 (fun r hr => by rw [hg2 r hr]; omega),
      reassignEventID_length]

/-- Witness for `C3_shape_and_event_ids` on a one-record width-9 run. -/
theorem C3_shape_and_event_ids_witness :
    (∀ r ∈ ([[10, 20, 30, 100, 200, 9899/10, 5000000000, 2212, 1, 0, 0, 1]] :
        List (List ℚ)), r.length = 12) ∧
      ([[10, 20, 30, 100, 200, 9899/10, 5000000000, 2212, 1, 0, 0, 1]] :
          List (List ℚ)).map (fun r => r.getD 8 0)
        = (List.range ([[10, 20, 30, 100, 200, 9899/10, 5000000000, 2212, 1, 0, 0, 1]] :
            List (List ℚ)).length).map (fun i : ℕ => ((i : ℚ) + 1)) :=
  C3_shape_and_event_ids ⟨(0, 0), 1, false, 1⟩
    [[1, 1, 2, 3, 1/10, 2/10, 9899/10000, 1, 5]]
    (fun m => List.replicate m (1/2)) (fun n => List.range n) _
    (fun n => List.Perm.refl _) (by with_unfolding_all rfl)

/-- C5: when `duplicate = False`, every output row's weight field (column
11) equals the input weight (column 7) of its own source record times
`mult`, exactly — the same source record whose converted position and
momentum the row carries — and no other stage (sampling, event-ID
reassignment) modifies it. -/
theorem C5_weight_rescaling (d : InputDict) (mat : List (List ℚ))
    (rand : ℕ → List ℚ) (shuffle : ℕ → List ℕ) (out : List (List ℚ))
    (hdup : d.duplicate = false)
    (hsh : ∀ n, (shuffle n).Perm (List.range n))
    (hok : main d mat rand shuffle = Except.ok out) :
    ∀ r ∈ out, ∃ s ∈ mat,
      r.getD 11 0 = s.getD 7 0 * d.mult ∧
      r.getD 0 0 = s.getD 1 0 * 10 ∧ r.getD 3 0 = s.getD 4 0 * 1000 := by
  obtain ⟨hw, g0, hca, hout⟩ := main_ok_elim hok
  subst hout
  intro r hr
  unfold postConvert at hr
  obtain ⟨i, hi, rfl⟩ := exists_of_mem_reassign hr
  have hmem := mem_of_mem_fracSample (hsh _) (List.getElem_mem hi)
  obtain ⟨j, hj1, hj2, heq⟩ := exists_getElem_of_mem_dupStage_false hdup hmem
  have hjmat : j < (momentumCut d.p_cut mat).length := by
    have := hj2
    rwa [weightsOf, List.length_map] at this
  have hconv := convertAll_ok_getElem hca j hjmat hj1
  obtain ⟨pdg, hpdg, hlit⟩ := convertRow_ok_iff.1 hconv
  have hws : (weightsOf d (momentumCut d.p_cut mat))[j]
      = ((momentumCut d.p_cut mat)[j]).getD 7 0 * d.mult := by
    unfold weightsOf
    rw [List.getElem_map]
  refine ⟨(momentumCut d.p_cut mat)[j],
    momentumCut_subset d.p_cut mat _ (List.getElem_mem hjmat), ?_, ?_, ?_⟩
  · rw [heq, getD_set_ne (by omega), hlit, getD_set_same (by simp), hws]
  · rw [heq, getD_set_ne (by omega), getD_set_ne (by omega), hlit]
    rfl
  · rw [heq, getD_set_ne (by omega), getD_set_ne (by omega), hlit]
    rfl

/-- Witness for `C5_weight_rescaling`: one record with weight 3 and
`mult = 2` comes out with weight field 6. -/
theorem C5_weight_rescaling_witness :
    ∃ s ∈ ([[1, 1, 2, 3, 0, 0, 0, 3, 0]] : List (List ℚ)),
      ([10, 20, 30, 0, 0, 0, 0, 2212, 1, 0, 0, 6] : List ℚ).getD 11 0
          = s.getD 7 0 * (2 : ℚ) ∧
      ([10, 20, 30, 0, 0, 0, 0, 2212, 1, 0, 0, 6] : List ℚ).getD 0 0
          = s.getD 1 0 * 10 ∧
      ([10, 20, 30, 0, 0, 0, 0, 2212, 1, 0, 0, 6] : List ℚ).getD 3 0
          = s.getD 4 0 * 1000 :=
  C5_weight_rescaling ⟨(0, 0), 2, false, 1⟩ [[1, 1, 2, 3, 0, 0, 0, 3, 0]]
    (fun m => List.replicate m (1/2)) (fun n => List.range n)
    [[10, 20, 30, 0, 0, 0, 0, 2212, 1, 0, 0, 6]]
    rfl (fun n => List.Perm.refl _) (by with_unfolding_all rfl)
    [10, 20, 30, 0, 0, 0, 0, 2212, 1, 0, 0, 6] (List.mem_cons_self _ _)

/-- C10: in every successful run, whatever the configuration, the track-id
column (index 9) and parent-id column (index 10) of every output row are
exactly 0: they come from the zero-initialised output matrix and no stage
ever writes them, so the "canonical primary particle value" is concretely
0. -/
theorem C10_track_parent_zero (d : InputDict) (mat : List (List ℚ))
    (rand : ℕ → List ℚ) (shuffle : ℕ → List ℕ) (out : List (List ℚ))
    (hok : main d mat rand shuffle = Except.ok out) :
    ∀ r ∈ out, r.getD 9 0 = 0 ∧ r.getD 10 0 = 0 := by
  obtain ⟨hw, g0, hca, hout⟩ := main_ok_elim hok
  subst hout
  intro r hr
  unfold postConvert at hr
  obtain ⟨i, hi, rfl⟩ := exists_of_mem_reassign hr
  have hmem := List.getElem_mem hi
  rcases mem_or_nil_of_mem_fracSample hmem with hg1 | hnil
  · obtain ⟨g, hg, hcase⟩ := exists_of_mem_dupStage hg1
    obtain ⟨r0, hr0, hconv⟩ := exists_of_mem_convertAll hca hg
    obtain ⟨pdg, hpdg, rfl⟩ := convertRow_ok_iff.1 hconv
    rcases hcase with heq | ⟨w, heq⟩ <;> rw [heq] <;>
      exact ⟨by rw [getD_set_ne (by omega), getD_set_ne (by omega)]; rfl,
             by rw [getD_set_ne (by omega), getD_set_ne (by omega)]; rfl⟩
  · rw [hnil]
    exact ⟨rfl, rfl⟩

/-- Witness for `C10_track_parent_zero` on a duplicating run (weight 2.3,
three copies). -/
theorem C10_track_parent_zero_witness :
    ([10, 20, 30, 0, 0, 0, 0, 2212, 1, 0, 0, 1] : List ℚ).getD 9 0 = 0 ∧
      ([10, 20, 30, 0, 0, 0, 0, 2212, 1, 0, 0, 1] : List ℚ).getD 10 0 = 0 :=
  C10_track_parent_zero ⟨(0, 0), 1, true, 1⟩ [[1, 1, 2, 3, 0, 0, 0, 23/10, 0]]
    (fun m => List.replicate m (1/2)) (fun n => List.range n)
    [[10, 20, 30, 0, 0, 0, 0, 2212, 1, 0, 0, 1],
     [10, 20, 30, 0, 0, 0, 0, 2212, 2, 0, 0, 1],
     [10, 20, 30, 0, 0, 0, 0, 2212, 3, 0, 0, 1]]
    (by with_unfolding_all rfl)
    [10, 20, 30, 0, 0, 0, 0, 2212, 1, 0, 0, 1] (List.mem_cons_self _ _)

end Mars2G4BL
